import Mathlib

/-!
Verification of the shellcaster controller loop.

The definitions below are a shallow embedding of the message-dispatch loop of
`src/src/main.rs` together with the data model of `src/src/types.rs`.  The
controller is single-threaded: it processes one inbound message at a time and
mutates the shared podcast list, calls the database, spawns feed workers,
submits downloads, invokes the external player and emits UI notifications.
In the embedding, the shared mutable state (`Arc<Mutex<Vec<Podcast>>>` in
`main.rs`; `types.rs` spells the alias `MutableVec` with `Rc<RefCell<..>>` —
both are interiorly mutable shared vectors) is passed explicitly as a value,
and every side effect of a handler is recorded in an explicit event list.
A handler that would panic (a failed `unwrap`) returns `none`.

The modules `db`, `feeds`, `downloads`, `play_file`, `ui` and `config` are
declared in `main.rs` but their files are not part of the sources; the
operations the controller uses from them are modelled from the spec
(section 6, External Interfaces) and are marked as such below.
-/

namespace Shellcaster

/-- Modelled from the spec: a filesystem path (`std::path::PathBuf`) either is
valid Unicode or is not; `to_str` succeeds exactly on valid-Unicode paths
("local path was not valid text"). -/
inductive FsPath where
  | utf8 (s : String)
  | nonUnicode
deriving DecidableEq

def FsPath.to_str : FsPath → Option String
  | .utf8 s => some s
  | .nonUnicode => none

/-- `types.rs`: struct `Episode`.  `chrono::DateTime<Utc>` values are modelled
as integers; they never influence control flow in `main.rs`. -/
structure Episode where
  id : Option Int
  title : String
  url : String
  description : String
  pubdate : Option Int
  duration : Option Int
  path : Option FsPath
  played : Bool
deriving DecidableEq

/-- `types.rs`: struct `Podcast`.  The field `any_unplayed` is the derived
flag read and written by the `MarkPlayed` and `MarkAllPlayed` handlers of
`main.rs` (the copy of `types.rs` in the sources predates that field; it is
required for `main.rs` to compile and is part of the spec data model).
The episode vector is shared (`MutableVec<Episode>`): a cloned `Podcast`
aliases the same episode vector as the catalog entry it was cloned from, so
mutating the episode list through the clone also mutates the catalog entry. -/
structure Podcast where
  id : Option Int
  title : String
  url : String
  description : Option String
  author : Option String
  explicit : Option Bool
  last_checked : Int
  episodes : List Episode
  any_unplayed : Bool
deriving DecidableEq

/-- The early-exit loop of the `MarkPlayed` handler (`main.rs` 211-218):
`any_unplayed` is true iff some episode of the list is unplayed. -/
def anyUnplayed (eps : List Episode) : Bool :=
  eps.any fun e => !e.played

/-- Modelled from the spec: the Persistence collaborator (module `db`, not in
the sources).  Rows are stored per podcast, each carrying its episode rows;
`next_id` is the next identity handed out on insertion ("identity absent
until persisted, then a stable integer"). -/
structure Database where
  podcasts : List Podcast
  next_id : Int
deriving DecidableEq

def Episode.setPlayedIfId (epId : Int) (pl : Bool) (e : Episode) : Episode :=
  if e.id = some epId then { e with played := pl } else e

/-- Modelled from the spec: `setPlayedStatus(episodeId, played)` updates the
played flag of the episode row(s) with that identity. -/
def Database.set_played_status (db : Database) (epId : Int) (pl : Bool) : Database :=
  { db with podcasts := db.podcasts.map fun p =>
      { p with episodes := p.episodes.map (Episode.setPlayedIfId epId pl) } }

/-- Modelled from the spec: `getPodcasts()` returns the ordered list of
podcasts; the derived flag of a returned podcast agrees with its episode rows
(glossary: `any_unplayed` "must never drift from that computation"). -/
def Database.get_podcasts (db : Database) : List Podcast :=
  db.podcasts.map fun p => { p with any_unplayed := anyUnplayed p.episodes }

/-- Modelled from the spec: `getEpisodes(podcastId)` returns the ordered
episode rows of the podcast with that identity. -/
def Database.get_episodes (db : Database) (podId : Int) : List Episode :=
  match db.podcasts.find? (fun p => decide (p.id = some podId)) with
  | some p => p.episodes
  | none => []

/-- Modelled from the spec: `insertPodcast(parsed) -> Result<newEpisodeCount>`;
the new row receives a fresh identity and the episode count is returned.  No
failure source is modelled, so the result is always `ok`; the `Err` branch of
the handler is kept for faithfulness to `main.rs`. -/
def Database.insert_podcast (db : Database) (pod : Podcast) :
    Except String (Database × Nat) :=
  .ok ({ db with
          podcasts := db.podcasts ++ [{ pod with id := some db.next_id }],
          next_id := db.next_id + 1 },
       pod.episodes.length)

/-- Modelled from the spec: `updatePodcast(parsed) -> Result<()>` merges the
parsed data against the existing row with the same identity (episode list
replaced, `last_checked` updated).  Always `ok`, as for `insert_podcast`. -/
def Database.update_podcast (db : Database) (pod : Podcast) :
    Except String Database :=
  .ok { db with podcasts := db.podcasts.map fun p =>
          if p.id = pod.id then
            { p with title := pod.title, url := pod.url,
                     episodes := pod.episodes,
                     last_checked := pod.last_checked }
          else p }

/-- Modelled from the spec: `insertFile(episodeId, path) -> Result<()>`
records the local file path on the episode row. -/
def Database.insert_file (db : Database) (epId : Int) (path : FsPath) :
    Except String Database :=
  .ok { db with podcasts := db.podcasts.map fun p =>
          { p with episodes := p.episodes.map fun e =>
              if e.id = some epId then { e with path := some path } else e } }

/-- `main.rs`: enum `MainMessage`, the outbound notifications to the UI
(`refresh-menus` is `UiUpdateMenus`, `show-message` is `UiSpawnMsgWin`). -/
inductive MainMessage where
  | UiUpdateMenus
  | UiSpawnMsgWin (text : String) (duration : Nat)
  | UiTearDown
deriving DecidableEq

/-- Modelled from the spec: the user-intent messages of module `ui`
(section 6: Presentation → Controller), as matched by `main.rs`. -/
inductive UiMsg where
  | Quit
  | AddFeed (url : String)
  | Sync (pod_index : Nat)
  | SyncAll
  | Play (pod_index ep_index : Nat)
  | MarkPlayed (pod_index ep_index : Nat) (played : Bool)
  | MarkAllPlayed (pod_index : Nat) (played : Bool)
  | Download (pod_index ep_index : Nat)
  | DownloadAll (pod_index : Nat)
  | Noop
deriving DecidableEq

/-- Modelled from the spec: feed-sync worker results of module `feeds`
(section 4.3: "new" with no identity, "sync" with identity, or an error). -/
inductive FeedMsg where
  | NewData (pod : Podcast)
  | SyncData (pod : Podcast)
  | Error
deriving DecidableEq

/-- Modelled from the spec: the payload of a completed download (module
`downloads`): episode identity, owning podcast identity, final local path. -/
structure EpData where
  id : Int
  pod_id : Int
  file_path : FsPath
deriving DecidableEq

/-- Modelled from the spec: download worker results of module `downloads`
(section 4.4: `Completed(localPath) | Failed(kind)`). -/
inductive DownloadMsg where
  | Complete (ep_data : EpData)
  | ResponseError (ep_data : EpData)
  | ResponseDataError (ep_data : EpData)
  | FileCreateError (ep_data : EpData)
  | FileWriteError (ep_data : EpData)
deriving DecidableEq

/-- The merged inbound channel of the controller (`Message` in the sources):
user intents, feed results and download results. -/
inductive Message where
  | Ui (m : UiMsg)
  | Feed (m : FeedMsg)
  | Dl (m : DownloadMsg)
deriving DecidableEq

/-- Modelled from the spec: the two configuration values the loop reads
(module `config`): the player command template and the download directory
(a path, kept as its component list; `push` appends a component). -/
structure Config where
  play_command : String
  download_path : List String
deriving DecidableEq

/-- Outcomes of the external calls a handler may make during one message:
`play_file::execute` and `std::fs::create_dir_all`.  The handlers only
branch on success or failure of these calls. -/
structure Env where
  playOk : Bool
  createDirOk : Bool
deriving DecidableEq

/-- One recorded side effect of a handler: an outbound notification, a spawned
feed worker (`feeds::spawn_feed_checker`), a player invocation
(`play_file::execute`), a batch submitted to the download manager
(`download_manager.download_list`), or — traced for the `SyncAll` handler —
acquisition and release of the podcast-list lock. -/
inductive Event where
  | note (m : MainMessage)
  | spawnFeedWorker (url : String) (id : Option Int)
  | playerExec (command : String) (target : String)
  | downloadSubmit (episodes : List Episode) (path : List String)
  | lockPodcastList
  | unlockPodcastList
deriving DecidableEq

/-- The controller state: the shared in-memory podcast list (the Catalog) and
the persistence state. -/
structure CState where
  podcast_list : List Podcast
  db : Database
deriving DecidableEq

/-- `main.rs` 86-89, `UiMsg::AddFeed`: spawn a feed worker with no prior
identity; no state change. -/
def stepAddFeed (s : CState) (url : String) : CState × List Event :=
  (s, [Event.spawnFeedWorker url none])

/-- `main.rs` 91-100, `FeedMsg::NewData`: insert the parsed podcast, reload
the whole catalog from the database, notify; on a database error only a
message is shown. -/
def stepFeedNewData (s : CState) (pod : Podcast) : CState × List Event :=
  match s.db.insert_podcast pod with
  | .ok (db1, num_ep) =>
      ({ podcast_list := db1.get_podcasts, db := db1 },
       [Event.note MainMessage.UiUpdateMenus,
        Event.note (MainMessage.UiSpawnMsgWin
          ("Successfully added " ++ toString num_ep ++ " episodes.") 5000)])
  | .error _ =>
      (s, [Event.note (MainMessage.UiSpawnMsgWin
        "Error adding podcast to database." 5000)])

/-- `main.rs` 102-103, `FeedMsg::Error`: only a notification. -/
def stepFeedError (s : CState) : CState × List Event :=
  (s, [Event.note (MainMessage.UiSpawnMsgWin "Error retrieving RSS feed." 5000)])

/-- `main.rs` 119-131, `FeedMsg::SyncData`: update the podcast row, reload the
catalog, notify; on a database error only a message is shown. -/
def stepFeedSyncData (s : CState) (pod : Podcast) : CState × List Event :=
  match s.db.update_podcast pod with
  | .ok db1 =>
      ({ podcast_list := db1.get_podcasts, db := db1 },
       [Event.note MainMessage.UiUpdateMenus,
        Event.note (MainMessage.UiSpawnMsgWin
          ("Synchronized " ++ pod.title ++ ".") 5000)])
  | .error _ =>
      (s, [Event.note (MainMessage.UiSpawnMsgWin
        ("Error synchronizing " ++ pod.title ++ ".") 5000)])

/-- `main.rs` 105-117, `UiMsg::Sync`: read url and id at the index
(`get(..).unwrap()`: `none` models the panic), spawn one worker. -/
def stepSync (s : CState) (pod_index : Nat) : Option (CState × List Event) :=
  match s.podcast_list[pod_index]? with
  | some podcast => some (s, [Event.spawnFeedWorker podcast.url podcast.id])
  | none => none

/-- `main.rs` 133-153, `UiMsg::SyncAll`: snapshot `(url, id)` of every podcast
inside one lock scope, then spawn the workers outside it.  The lock scope is
traced explicitly because the claim about this handler is about it. -/
def stepSyncAll (s : CState) : CState × List Event :=
  (s, [Event.lockPodcastList, Event.unlockPodcastList] ++
      s.podcast_list.map fun podcast =>
        Event.spawnFeedWorker podcast.url podcast.id)

/-- `main.rs` 155-189, `UiMsg::Play`: resolve the episode (panic on a bad
index), then play the local path when present and valid Unicode, stream the
URL when no path is present, and notify on each failure. -/
def stepPlay (cfg : Config) (env : Env) (s : CState) (pod_index ep_index : Nat) :
    Option (CState × List Event) :=
  match s.podcast_list[pod_index]? with
  | none => none
  | some podcast =>
    match podcast.episodes[ep_index]? with
    | none => none
    | some episode =>
      match episode.path with
      | some path =>
        match path.to_str with
        | some p =>
            if env.playOk then
              some (s, [Event.playerExec cfg.play_command p])
            else
              some (s, [Event.playerExec cfg.play_command p,
                Event.note (MainMessage.UiSpawnMsgWin
                  "Error: Could not play file. Check configuration." 5000)])
        | none =>
            some (s, [Event.note (MainMessage.UiSpawnMsgWin
              "Error: Filepath is not valid Unicode." 5000)])
      | none =>
          if env.playOk then
            some (s, [Event.playerExec cfg.play_command episode.url])
          else
            some (s, [Event.playerExec cfg.play_command episode.url,
              Event.note (MainMessage.UiSpawnMsgWin
                "Error: Could not stream URL." 5000)])

/-- `main.rs` 191-224, `UiMsg::MarkPlayed`: set the one episode's flag in the
shared episode vector (this reaches the catalog entry through the alias),
persist it, recompute `any_unplayed`, and write the cloned podcast back only
when the recomputed flag differs from the stored one. -/
def stepMarkPlayed (s : CState) (pod_index ep_index : Nat) (pl : Bool) :
    Option (CState × List Event) :=
  match s.podcast_list[pod_index]? with
  | none => none
  | some podcast =>
    match podcast.episodes[ep_index]? with
    | none => none
    | some episode0 =>
      let episode := { episode0 with played := pl }
      match episode.id with
      | none => none
      | some epId =>
        let db1 := s.db.set_played_status epId pl
        let new_eps := podcast.episodes.set ep_index episode
        let any_unplayed := anyUnplayed new_eps
        let pod1 := { podcast with episodes := new_eps }
        let list1 := s.podcast_list.set pod_index pod1
        let list2 :=
          if any_unplayed ≠ pod1.any_unplayed then
            list1.set pod_index { pod1 with any_unplayed := any_unplayed }
          else list1
        some ({ podcast_list := list2, db := db1 }, [])

/-- The per-episode persistence loop of `MarkAllPlayed` (`main.rs` 236-238):
`db_inst.set_played_status(ep.id.unwrap(), played)` for each episode in
order; `none` models the panic on a missing identity. -/
def setAllPlayed : Database → List Episode → Bool → Option Database
  | db, [], _ => some db
  | db, e :: rest, pl =>
    match e.id with
    | some epId => setAllPlayed (db.set_played_status epId pl) rest pl
    | none => none

/-- `main.rs` 226-246, `UiMsg::MarkAllPlayed`: persist the flag for every
episode, replace the shared episode vector by the database's rows, set
`any_unplayed := !played` unconditionally, write the podcast back, notify. -/
def stepMarkAllPlayed (s : CState) (pod_index : Nat) (pl : Bool) :
    Option (CState × List Event) :=
  match s.podcast_list[pod_index]? with
  | none => none
  | some podcast =>
    match setAllPlayed s.db podcast.episodes pl with
    | none => none
    | some db1 =>
      match podcast.id with
      | none => none
      | some podId =>
        let new_eps := db1.get_episodes podId
        let pod1 := { podcast with episodes := new_eps, any_unplayed := !pl }
        some ({ podcast_list := s.podcast_list.set pod_index pod1, db := db1 },
              [Event.note MainMessage.UiUpdateMenus])

/-- The directory-creation check shared by the two download handlers
(`main.rs` 259-265 and 324-330): on failure of `create_dir_all`, one
notification; the handler then proceeds either way. -/
def dirEvents (title : String) (env : Env) : List Event :=
  if env.createDirOk then []
  else [Event.note (MainMessage.UiSpawnMsgWin
    ("Could not create dir: " ++ title) 5000)]

/-- `main.rs` 248-269, `UiMsg::Download`: resolve the one episode, ensure the
destination directory, submit a one-element batch. -/
def stepDownload (cfg : Config) (env : Env) (s : CState) (pod_index ep_index : Nat) :
    Option (CState × List Event) :=
  match s.podcast_list[pod_index]? with
  | none => none
  | some podcast =>
    match podcast.episodes[ep_index]? with
    | none => none
    | some episode =>
      some (s, dirEvents podcast.title env ++
        [Event.downloadSubmit [episode] (cfg.download_path ++ [podcast.title])])

/-- `main.rs` 308-334, `UiMsg::DownloadAll`: resolve every episode of the
podcast, ensure the destination directory, submit them as one batch. -/
def stepDownloadAll (cfg : Config) (env : Env) (s : CState) (pod_index : Nat) :
    Option (CState × List Event) :=
  match s.podcast_list[pod_index]? with
  | none => none
  | some podcast =>
    some (s, dirEvents podcast.title env ++
      [Event.downloadSubmit podcast.episodes (cfg.download_path ++ [podcast.title])])

/-- `main.rs` 271-289, `DownloadMsg::Complete`: record the file in the
database (result ignored by `let _ =`), locate the podcast by identity and
the episode by identity (panic when absent), attach the path in the shared
episode vector, notify. -/
def stepDlComplete (s : CState) (ep_data : EpData) : Option (CState × List Event) :=
  let db1 := match s.db.insert_file ep_data.id ep_data.file_path with
             | .ok d => d
             | .error _ => s.db
  match s.podcast_list.findIdx? (fun p => decide (p.id = some ep_data.pod_id)) with
  | none => none
  | some pi =>
    match s.podcast_list[pi]? with
    | none => none
    | some podcast =>
      match podcast.episodes.findIdx? (fun e => decide (e.id = some ep_data.id)) with
      | none => none
      | some ei =>
        match podcast.episodes[ei]? with
        | none => none
        | some episode =>
          let eps1 := podcast.episodes.set ei { episode with path := some ep_data.file_path }
          let pod1 := { podcast with episodes := eps1 }
          some ({ podcast_list := s.podcast_list.set pi pod1, db := db1 },
                [Event.note MainMessage.UiUpdateMenus])

/-- One iteration of the controller loop (`main.rs` 81-338): dispatch one
inbound message.  `Quit` breaks the loop without touching the state.  `none`
models a panic inside the handler. -/
def step (cfg : Config) (env : Env) (s : CState) :
    Message → Option (CState × List Event)
  | Message.Ui UiMsg.Quit => some (s, [])
  | Message.Ui (UiMsg.AddFeed url) => some (stepAddFeed s url)
  | Message.Feed (FeedMsg.NewData pod) => some (stepFeedNewData s pod)
  | Message.Feed FeedMsg.Error => some (stepFeedError s)
  | Message.Ui (UiMsg.Sync i) => stepSync s i
  | Message.Feed (FeedMsg.SyncData pod) => some (stepFeedSyncData s pod)
  | Message.Ui UiMsg.SyncAll => some (stepSyncAll s)
  | Message.Ui (UiMsg.Play i j) => stepPlay cfg env s i j
  | Message.Ui (UiMsg.MarkPlayed i j pl) => stepMarkPlayed s i j pl
  | Message.Ui (UiMsg.MarkAllPlayed i pl) => stepMarkAllPlayed s i pl
  | Message.Ui (UiMsg.Download i j) => stepDownload cfg env s i j
  | Message.Dl (DownloadMsg.Complete d) => stepDlComplete s d
  | Message.Dl (DownloadMsg.ResponseError _) =>
      some (s, [Event.note (MainMessage.UiSpawnMsgWin
        "Error sending download request." 5000)])
  | Message.Dl (DownloadMsg.ResponseDataError _) =>
      some (s, [Event.note (MainMessage.UiSpawnMsgWin
        "Error downloading episode." 5000)])
  | Message.Dl (DownloadMsg.FileCreateError _) =>
      some (s, [Event.note (MainMessage.UiSpawnMsgWin
        "Error creating file." 5000)])
  | Message.Dl (DownloadMsg.FileWriteError _) =>
      some (s, [Event.note (MainMessage.UiSpawnMsgWin
        "Error writing file to disk." 5000)])
  | Message.Ui (UiMsg.DownloadAll i) => stepDownloadAll cfg env s i
  | Message.Ui UiMsg.Noop => some (s, [])

/-- The spec invariant for one podcast: the derived flag equals the logical OR
of `not played` over its episodes. -/
def podInv (p : Podcast) : Prop :=
  p.any_unplayed = anyUnplayed p.episodes

/-- The spec invariant for a controller state: every podcast of the catalog
satisfies `podInv`. -/
def catalogInv (s : CState) : Prop :=
  ∀ p, p ∈ s.podcast_list → podInv p

/-- The consistency of the persistence row with the in-memory podcast that the
`MarkAllPlayed` handler relies on: the podcast has an identity, the database
holds a row for it whose episode rows are the in-memory episode list, and —
the condition forced by the `any_unplayed := !played` assignment — the episode
list is nonempty or the flag being written is `true`. -/
def markAllPrecond (s : CState) (i : Nat) (pl : Bool) : Prop :=
  ∀ pod, s.podcast_list[i]? = some pod →
    ∃ podId row, pod.id = some podId ∧
      s.db.podcasts.find? (fun q => decide (q.id = some podId)) = some row ∧
      row.episodes = pod.episodes ∧ (pod.episodes ≠ [] ∨ pl = true)

/-- The ids written by `setAllPlayed`, in order; `none` when some episode has
no identity (the handler would panic there). -/
def epIds : List Episode → Option (List Int)
  | [] => some []
  | e :: rest =>
    match e.id with
    | some i => (epIds rest).map fun l => i :: l
    | none => none

/-- Sequential composition of `set_played_status` over a list of ids. -/
def applyAll (db : Database) (ids : List Int) (pl : Bool) : Database :=
  ids.foldl (fun d i => d.set_played_status i pl) db

/-- The effect of `applyAll` on one episode row. -/
def applySets (ids : List Int) (pl : Bool) (e : Episode) : Episode :=
  ids.foldl (fun acc i => Episode.setPlayedIfId i pl acc) e

def isPlayerExec : Event → Bool
  | .playerExec _ _ => true
  | _ => false

/-- Number of external-player invocations recorded in an event list. -/
def countPlayerExec (evs : List Event) : Nat :=
  (evs.filter isPlayerExec).length

def isLockAcquire : Event → Bool
  | .lockPodcastList => true
  | _ => false

def isSpawnEvent : Event → Bool
  | .spawnFeedWorker _ _ => true
  | _ => false

/-- Full characterisation of a non-panicking `MarkPlayed` message: no
notification, every other podcast untouched, every other episode untouched,
the one episode's flag set, the flag persisted, and the podcast's derived
flag equal to the recomputation — with the podcast record itself replaced
only when the derived flag changed. -/
def MarkPlayedFrame (s : CState) (p e : Nat) (pl : Bool) (s' : CState)
    (ev : List Event) : Prop :=
  ev = [] ∧
  s'.podcast_list.length = s.podcast_list.length ∧
  (∀ q, q ≠ p → s'.podcast_list[q]? = s.podcast_list[q]?) ∧
  ∃ pod ep, s.podcast_list[p]? = some pod ∧ pod.episodes[e]? = some ep ∧
    (∃ epId, ep.id = some epId ∧ s'.db = s.db.set_played_status epId pl) ∧
    ∃ pod1, s'.podcast_list[p]? = some pod1 ∧
      pod1.episodes = pod.episodes.set e { ep with played := pl } ∧
      pod1.episodes[e]? = some { ep with played := pl } ∧
      (∀ f, f ≠ e → pod1.episodes[f]? = pod.episodes[f]?) ∧
      pod1.any_unplayed = anyUnplayed pod1.episodes ∧
      pod1.id = pod.id ∧ pod1.title = pod.title ∧ pod1.url = pod.url ∧
      pod1.description = pod.description ∧ pod1.author = pod.author ∧
      pod1.explicit = pod.explicit ∧ pod1.last_checked = pod.last_checked ∧
      (anyUnplayed pod1.episodes = pod.any_unplayed →
        s'.podcast_list =
          s.podcast_list.set p { pod with episodes := pod.episodes.set e { ep with played := pl } })

/-- What holds after a non-panicking `MarkAllPlayed` message for podcast `pod`
(found at the index) with identity `podId`: the refresh notification, the
derived flag set to `!played`, the episode list reloaded from persistence
with every reloaded episode carrying the written flag and the episode count
preserved. -/
def MarkAllPlayedPost (pod : Podcast) (p : Nat) (pl : Bool) (podId : Int)
    (s' : CState) (ev : List Event) : Prop :=
  ev = [Event.note MainMessage.UiUpdateMenus] ∧
  ∃ pod1, s'.podcast_list[p]? = some pod1 ∧
    pod1.any_unplayed = !pl ∧
    pod1.episodes = s'.db.get_episodes podId ∧
    (∀ x, x ∈ pod1.episodes → x.played = pl) ∧
    pod1.episodes.length = pod.episodes.length

/-- What a non-panicking `Play` message does, by case on the resolved
episode's local path: the catalog is untouched; with no path the URL is
streamed (one invocation, failure notified); with a valid-Unicode path the
file is played (one invocation, failure notified); with a non-Unicode path
the player is not invoked and one notification is emitted. -/
def PlaySpec (cfg : Config) (env : Env) (s : CState) (ep : Episode)
    (s' : CState) (ev : List Event) : Prop :=
  s' = s ∧
  (ep.path = none →
    ev = Event.playerExec cfg.play_command ep.url ::
      (if env.playOk then []
       else [Event.note (MainMessage.UiSpawnMsgWin
         "Error: Could not stream URL." 5000)]) ∧
    countPlayerExec ev = 1) ∧
  (∀ str, ep.path = some (FsPath.utf8 str) →
    ev = Event.playerExec cfg.play_command str ::
      (if env.playOk then []
       else [Event.note (MainMessage.UiSpawnMsgWin
         "Error: Could not play file. Check configuration." 5000)]) ∧
    countPlayerExec ev = 1) ∧
  (ep.path = some FsPath.nonUnicode →
    ev = [Event.note (MainMessage.UiSpawnMsgWin
      "Error: Filepath is not valid Unicode." 5000)] ∧
    countPlayerExec ev = 0)

/-- A concrete episode used in witnesses. -/
def mkEpisode (i : Int) (pl : Bool) : Episode :=
  { id := some i, title := "ep", url := "epurl", description := "",
    pubdate := none, duration := none, path := none, played := pl }

/-- A concrete podcast used in witnesses. -/
def mkPodcast (i : Int) (eps : List Episode) (anyU : Bool) : Podcast :=
  { id := some i, title := "pod", url := "podurl", description := none,
    author := none, explicit := none, last_checked := 0,
    episodes := eps, any_unplayed := anyU }

def cfgW : Config := { play_command := "mpv", download_path := ["dl"] }

def envOkW : Env := { playOk := true, createDirOk := true }

def envDirFailW : Env := { playOk := true, createDirOk := false }

def e10 : Episode := mkEpisode 10 false

def e11 : Episode := mkEpisode 11 true

def e10p : Episode := mkEpisode 10 true

/-- A two-episode podcast with one unplayed episode; its derived flag is
consistent. -/
def podW : Podcast := mkPodcast 1 [e10, e11] true

def dbW : Database := { podcasts := [podW], next_id := 2 }

def sW : CState := { podcast_list := [podW], db := dbW }

/-- The state after `MarkPlayed(0, 0, true)` on `sW`: the episode is played,
the derived flag recomputed to `false`, the database row updated. -/
def sW1 : CState :=
  { podcast_list := [{ podW with episodes := [e10p, e11], any_unplayed := false }],
    db := { podcasts := [{ podW with episodes := [e10p, e11] }], next_id := 2 } }

/-- The counterexample state: a persisted podcast whose episode list is empty
(`types.rs` documents the episode vector as "possibly empty"), with the
derived flag consistently `false`, mirrored in the database. -/
def cexPodcast : Podcast := mkPodcast 1 [] false

def cexDb : Database := { podcasts := [cexPodcast], next_id := 2 }

def cexState : CState := { podcast_list := [cexPodcast], db := cexDb }

def eps5 : List Episode :=
  [mkEpisode 10 false, mkEpisode 11 false, mkEpisode 12 false,
   mkEpisode 13 false, mkEpisode 14 false]

def eps5p : List Episode :=
  [mkEpisode 10 true, mkEpisode 11 true, mkEpisode 12 true,
   mkEpisode 13 true, mkEpisode 14 true]

/-- A five-episode podcast, all episodes unplayed (the spec scenario for
`MarkAllPlayed`). -/
def pod5 : Podcast := mkPodcast 1 eps5 true

def db5 : Database := { podcasts := [pod5], next_id := 2 }

def s5 : CState := { podcast_list := [pod5], db := db5 }

/-- The state after `MarkAllPlayed(0, true)` on `s5`. -/
def s5after : CState :=
  { podcast_list := [{ pod5 with episodes := eps5p, any_unplayed := false }],
    db := { podcasts := [{ pod5 with episodes := eps5p }], next_id := 2 } }

/-- A parsed twelve-episode feed (the spec scenario for `AddFeed`). -/
def pod12 : Podcast := mkPodcast 0 (List.replicate 12 (mkEpisode 0 false)) true

def sEmptyW : CState := { podcast_list := [], db := { podcasts := [], next_id := 7 } }

/-- An episode whose downloaded file has a non-Unicode path. -/
def epBad : Episode := { mkEpisode 20 false with path := some FsPath.nonUnicode }

def podBad : Podcast := mkPodcast 2 [epBad] true

def sBad : CState :=
  { podcast_list := [podBad], db := { podcasts := [podBad], next_id := 3 } }

theorem list_set_self_of_getElem {α : Type} {l : List α} {i : Nat} {a : α}
    (h : l[i]? = some a) : l.set i a = l := by
  induction l generalizing i with
  | nil => simp at h
  | cons b t ih =>
    cases i with
    | zero =>
      simp only [List.getElem?_cons_zero, Option.some.injEq] at h
      simp [h]
    | succ n =>
      simp only [List.getElem?_cons_succ] at h
      simp [ih h]

theorem setPlayedIfId_id (i : Int) (pl : Bool) (e : Episode) :
    (Episode.setPlayedIfId i pl e).id = e.id := by
  by_cases h : e.id = some i <;> simp [Episode.setPlayedIfId, h]

theorem setPlayedIfId_idem (i : Int) (pl : Bool) (e : Episode) :
    Episode.setPlayedIfId i pl (Episode.setPlayedIfId i pl e) =
      Episode.setPlayedIfId i pl e := by
  by_cases h : e.id = some i <;> simp [Episode.setPlayedIfId, h]

theorem set_played_status_idem (db : Database) (i : Int) (pl : Bool) :
    (db.set_played_status i pl).set_played_status i pl =
      db.set_played_status i pl := by
  unfold Database.set_played_status
  simp only [List.map_map]
  congr 1
  apply List.map_congr_left
  intro p _
  simp only [Function.comp]
  congr 1
  simp only [List.map_map]
  apply List.map_congr_left
  intro e _
  exact setPlayedIfId_idem i pl e

theorem anyUnplayed_set_same_played {l : List Episode} {i : Nat} {e e1 : Episode}
    (h : l[i]? = some e) (hpl : e1.played = e.played) :
    anyUnplayed (l.set i e1) = anyUnplayed l := by
  induction l generalizing i with
  | nil => simp at h
  | cons b t ih =>
    cases i with
    | zero =>
      simp only [List.getElem?_cons_zero, Option.some.injEq] at h
      subst h
      simp [anyUnplayed, hpl]
    | succ n =>
      simp only [List.getElem?_cons_succ] at h
      simp [anyUnplayed, List.any_cons] at ih ⊢
      rw [ih h]

theorem applySets_nil (pl : Bool) (e : Episode) : applySets [] pl e = e := rfl

theorem applySets_cons (i : Int) (ids : List Int) (pl : Bool) (e : Episode) :
    applySets (i :: ids) pl e = applySets ids pl (Episode.setPlayedIfId i pl e) := rfl

theorem applySets_id (ids : List Int) (pl : Bool) (e : Episode) :
    (applySets ids pl e).id = e.id := by
  induction ids generalizing e with
  | nil => rfl
  | cons i rest ih =>
    rw [applySets_cons, ih, setPlayedIfId_id]

theorem applySets_played_or (ids : List Int) (pl : Bool) (e : Episode) :
    (applySets ids pl e).played = e.played ∨ (applySets ids pl e).played = pl := by
  induction ids generalizing e with
  | nil => exact Or.inl rfl
  | cons i rest ih =>
    rw [applySets_cons]
    rcases ih (Episode.setPlayedIfId i pl e) with h | h
    · by_cases hid : e.id = some i
      · right
        rw [h]
        simp [Episode.setPlayedIfId, hid]
      · left
        rw [h]
        simp [Episode.setPlayedIfId, hid]
    · exact Or.inr h

theorem applySets_played_of_mem {ids : List Int} {i : Int} {e : Episode}
    (pl : Bool) (hid : e.id = some i) (hmem : i ∈ ids) :
    (applySets ids pl e).played = pl := by
  induction ids generalizing e with
  | nil => simp at hmem
  | cons j rest ih =>
    rw [applySets_cons]
    rcases List.mem_cons.mp hmem with rfl | hmem'
    · rcases applySets_played_or rest pl (Episode.setPlayedIfId i pl e) with h | h
      · rw [h]
        simp [Episode.setPlayedIfId, hid]
      · exact h
    · exact ih (by rw [setPlayedIfId_id]; exact hid) hmem'

theorem setAllPlayed_eq_applyAll {db db1 : Database} {eps : List Episode} {pl : Bool}
    (h : setAllPlayed db eps pl = some db1) :
    ∃ ids, epIds eps = some ids ∧ db1 = applyAll db ids pl := by
  induction eps generalizing db with
  | nil =>
    simp only [setAllPlayed, Option.some.injEq] at h
    exact ⟨[], rfl, h.symm⟩
  | cons e rest ih =>
    simp only [setAllPlayed] at h
    cases hid : e.id with
    | none => rw [hid] at h; exact absurd h (by simp)
    | some i =>
      rw [hid] at h
      rcases ih h with ⟨ids, hids, hdb⟩
      refine ⟨i :: ids, ?_, hdb⟩
      simp [epIds, hid, hids]

theorem epIds_mem {eps : List Episode} {ids : List Int} {e : Episode}
    (h : epIds eps = some ids) (hmem : e ∈ eps) :
    ∃ i, e.id = some i ∧ i ∈ ids := by
  induction eps generalizing ids with
  | nil => simp at hmem
  | cons a rest ih =>
    simp only [epIds] at h
    cases hid : a.id with
    | none => rw [hid] at h; exact absurd h (by simp)
    | some i =>
      rw [hid] at h
      cases hrest : epIds rest with
      | none => rw [hrest] at h; exact absurd h (by simp)
      | some ids' =>
        rw [hrest] at h
        have h2 : i :: ids' = ids := Option.some.inj h
        subst h2
        rcases List.mem_cons.mp hmem with rfl | hmem'
        · exact ⟨i, hid, List.mem_cons_self ..⟩
        · rcases ih hrest hmem' with ⟨j, hj, hjm⟩
          exact ⟨j, hj, List.mem_cons_of_mem _ hjm⟩

theorem find?_map_id_preserving (f : Podcast → Podcast)
    (hf : ∀ p, (f p).id = p.id) (l : List Podcast) (podId : Int) :
    (l.map f).find? (fun p => decide (p.id = some podId)) =
      (l.find? (fun p => decide (p.id = some podId))).map f := by
  induction l with
  | nil => rfl
  | cons a t ih =>
    by_cases h : a.id = some podId
    · simp [List.find?_cons, hf, h]
    · simp [List.find?_cons, hf, h, ih]

theorem set_played_status_podcasts (db : Database) (i : Int) (pl : Bool) :
    (db.set_played_status i pl).podcasts =
      db.podcasts.map (fun p =>
        { p with episodes := p.episodes.map (Episode.setPlayedIfId i pl) }) := rfl

theorem get_episodes_set_played (db : Database) (i : Int) (pl : Bool) (podId : Int) :
    (db.set_played_status i pl).get_episodes podId =
      (db.get_episodes podId).map (Episode.setPlayedIfId i pl) := by
  unfold Database.get_episodes
  rw [set_played_status_podcasts,
    find?_map_id_preserving
      (fun p => { p with episodes := p.episodes.map (Episode.setPlayedIfId i pl) })
      (fun p => rfl)]
  cases hf : db.podcasts.find? (fun p => decide (p.id = some podId)) with
  | none => simp
  | some p => simp

theorem applyAll_cons (db : Database) (i : Int) (ids : List Int) (pl : Bool) :
    applyAll db (i :: ids) pl = applyAll (db.set_played_status i pl) ids pl := rfl

theorem get_episodes_applyAll (db : Database) (ids : List Int) (pl : Bool) (podId : Int) :
    (applyAll db ids pl).get_episodes podId =
      (db.get_episodes podId).map (applySets ids pl) := by
  induction ids generalizing db with
  | nil =>
    simp only [applyAll, List.foldl_nil]
    rw [show applySets [] pl = id from rfl, List.map_id]
  | cons i rest ih =>
    rw [applyAll_cons, ih, get_episodes_set_played, List.map_map]
    apply List.map_congr_left
    intro e _
    rfl

theorem stepMarkPlayed_some {s : CState} {p e : Nat} {pl : Bool} {s' : CState}
    {ev : List Event} (h : stepMarkPlayed s p e pl = some (s', ev)) :
    ∃ pod ep0 epId,
      s.podcast_list[p]? = some pod ∧ pod.episodes[e]? = some ep0 ∧
      ep0.id = some epId ∧ ev = [] ∧
      s'.db = s.db.set_played_status epId pl ∧
      s'.podcast_list =
        (if anyUnplayed (pod.episodes.set e { ep0 with played := pl }) ≠ pod.any_unplayed
         then s.podcast_list.set p
           { pod with episodes := pod.episodes.set e { ep0 with played := pl },
                      any_unplayed := anyUnplayed (pod.episodes.set e { ep0 with played := pl }) }
         else s.podcast_list.set p
           { pod with episodes := pod.episodes.set e { ep0 with played := pl } }) := by
  unfold stepMarkPlayed at h
  split at h
  · exact absurd h (by simp)
  next pod hpod =>
    split at h
    · exact absurd h (by simp)
    next ep0 hep =>
      simp only [] at h
      split at h
      · exact absurd h (by simp)
      next epId hid =>
        simp only [Option.some.injEq, Prod.mk.injEq] at h
        obtain ⟨h1, h2⟩ := h
        refine ⟨pod, ep0, epId, hpod, hep, hid, h2.symm, ?_, ?_⟩
        · rw [← h1]
        · rw [← h1]
          by_cases hA : anyUnplayed (pod.episodes.set e { ep0 with played := pl })
              = pod.any_unplayed
          · simp [hA]
          · simp [hA, List.set_set]

theorem stepMarkAllPlayed_some {s : CState} {p : Nat} {pl : Bool} {s' : CState}
    {ev : List Event} (h : stepMarkAllPlayed s p pl = some (s', ev)) :
    ∃ pod db1 podId,
      s.podcast_list[p]? = some pod ∧
      setAllPlayed s.db pod.episodes pl = some db1 ∧
      pod.id = some podId ∧
      ev = [Event.note MainMessage.UiUpdateMenus] ∧
      s' = { podcast_list := s.podcast_list.set p
              { pod with episodes := db1.get_episodes podId, any_unplayed := !pl },
             db := db1 } := by
  unfold stepMarkAllPlayed at h
  split at h
  · exact absurd h (by simp)
  next pod hpod =>
    split at h
    · exact absurd h (by simp)
    next db1 hset =>
      split at h
      · exact absurd h (by simp)
      next podId hid =>
        simp only [Option.some.injEq, Prod.mk.injEq] at h
        exact ⟨pod, db1, podId, hpod, hset, hid, h.2.symm, h.1.symm⟩

theorem reload_all_played {db db1 : Database} {eps : List Episode} {pl : Bool}
    {podId : Int} {row : Podcast}
    (hset : setAllPlayed db eps pl = some db1)
    (hrow : db.podcasts.find? (fun q => decide (q.id = some podId)) = some row)
    (heps : row.episodes = eps) :
    (∀ x, x ∈ db1.get_episodes podId → x.played = pl) ∧
    (db1.get_episodes podId).length = eps.length := by
  rcases setAllPlayed_eq_applyAll hset with ⟨ids, hids, rfl⟩
  rw [get_episodes_applyAll]
  have hge : db.get_episodes podId = eps := by
    unfold Database.get_episodes
    rw [hrow]
    exact heps
  rw [hge]
  constructor
  · intro x hx
    rcases List.mem_map.mp hx with ⟨e, he, rfl⟩
    rcases epIds_mem hids he with ⟨i, hei, him⟩
    exact applySets_played_of_mem pl hei him
  · simp

theorem stepSync_state {s : CState} {p : Nat} {s' : CState} {ev : List Event}
    (h : stepSync s p = some (s', ev)) : s' = s := by
  unfold stepSync at h
  split at h
  · simp only [Option.some.injEq, Prod.mk.injEq] at h
    exact h.1.symm
  · exact absurd h (by simp)

theorem stepPlay_state {cfg : Config} {env : Env} {s : CState} {p e : Nat}
    {s' : CState} {ev : List Event}
    (h : stepPlay cfg env s p e = some (s', ev)) : s' = s := by
  unfold stepPlay at h
  repeat' split at h
  all_goals first
    | (simp only [Option.some.injEq, Prod.mk.injEq] at h; exact h.1.symm)
    | exact absurd h (by simp)

theorem stepDownload_state {cfg : Config} {env : Env} {s : CState} {p e : Nat}
    {s' : CState} {ev : List Event}
    (h : stepDownload cfg env s p e = some (s', ev)) : s' = s := by
  unfold stepDownload at h
  repeat' split at h
  all_goals first
    | (simp only [Option.some.injEq, Prod.mk.injEq] at h; exact h.1.symm)
    | exact absurd h (by simp)

theorem stepDownloadAll_state {cfg : Config} {env : Env} {s : CState} {p : Nat}
    {s' : CState} {ev : List Event}
    (h : stepDownloadAll cfg env s p = some (s', ev)) : s' = s := by
  unfold stepDownloadAll at h
  repeat' split at h
  all_goals first
    | (simp only [Option.some.injEq, Prod.mk.injEq] at h; exact h.1.symm)
    | exact absurd h (by simp)

theorem stepDlComplete_some {s : CState} {d : EpData} {s' : CState}
    {ev : List Event} (h : stepDlComplete s d = some (s', ev)) :
    ∃ pi podcast ei episode,
      s.podcast_list[pi]? = some podcast ∧
      podcast.episodes[ei]? = some episode ∧
      ev = [Event.note MainMessage.UiUpdateMenus] ∧
      s'.podcast_list = s.podcast_list.set pi
        { podcast with episodes :=
            podcast.episodes.set ei { episode with path := some d.file_path } } := by
  unfold stepDlComplete at h
  simp only [] at h
  split at h
  · exact absurd h (by simp)
  next pi hpi =>
    split at h
    · exact absurd h (by simp)
    next podcast hpod =>
      split at h
      · exact absurd h (by simp)
      next ei hei =>
        split at h
        · exact absurd h (by simp)
        next episode hep =>
          simp only [Option.some.injEq, Prod.mk.injEq] at h
          refine ⟨pi, podcast, ei, episode, hpod, hep, h.2.symm, ?_⟩
          rw [← h.1]

theorem podInv_get_podcasts {db : Database} {p : Podcast}
    (h : p ∈ db.get_podcasts) : podInv p := by
  rcases List.mem_map.mp h with ⟨q, _, rfl⟩
  rfl

theorem forall_podInv_set {l : List Podcast} {i : Nat} {a : Podcast}
    (hl : ∀ x, x ∈ l → podInv x) (ha : podInv a) :
    ∀ x, x ∈ l.set i a → podInv x := by
  intro x hx
  rcases List.mem_or_eq_of_mem_set hx with hmem | rfl
  · exact hl x hmem
  · exact ha

theorem anyUnplayed_false_of_all_played {l : List Episode}
    (h : ∀ x, x ∈ l → x.played = true) : anyUnplayed l = false := by
  unfold anyUnplayed
  rw [List.any_eq_false]
  intro x hx
  rw [h x hx]
  simp

theorem anyUnplayed_true_of_all_unplayed {l : List Episode}
    (hne : l ≠ []) (h : ∀ x, x ∈ l → x.played = false) : anyUnplayed l = true := by
  unfold anyUnplayed
  rw [List.any_eq_true]
  cases l with
  | nil => exact absurd rfl hne
  | cons a t =>
    refine ⟨a, List.mem_cons_self .., ?_⟩
    rw [h a (List.mem_cons_self ..)]
    simp

theorem stepMarkPlayed_eq {s : CState} {p e : Nat} {pod : Podcast} {ep0 : Episode}
    {epId : Int} (pl : Bool)
    (hpod : s.podcast_list[p]? = some pod)
    (hep : pod.episodes[e]? = some ep0)
    (hid : ep0.id = some epId) :
    stepMarkPlayed s p e pl = some (
      { podcast_list :=
          if anyUnplayed (pod.episodes.set e { ep0 with played := pl }) ≠ pod.any_unplayed
          then s.podcast_list.set p
            { pod with episodes := pod.episodes.set e { ep0 with played := pl },
                       any_unplayed := anyUnplayed (pod.episodes.set e { ep0 with played := pl }) }
          else s.podcast_list.set p
            { pod with episodes := pod.episodes.set e { ep0 with played := pl } },
        db := s.db.set_played_status epId pl }, []) := by
  unfold stepMarkPlayed
  rw [hpod]
  simp only []
  rw [hep]
  simp only []
  rw [show ({ ep0 with played := pl } : Episode).id = ep0.id from rfl, hid]
  simp only []
  by_cases hA : anyUnplayed (pod.episodes.set e { ep0 with played := pl })
      = pod.any_unplayed
  · simp [hA]
  · simp [hA, List.set_set]

theorem stepMarkPlayed_shape {s : CState} {p e : Nat} {pl : Bool} {s' : CState}
    {ev : List Event} (h : stepMarkPlayed s p e pl = some (s', ev)) :
    ∃ pod ep0 epId podX,
      s.podcast_list[p]? = some pod ∧ pod.episodes[e]? = some ep0 ∧
      ep0.id = some epId ∧ ev = [] ∧
      s'.db = s.db.set_played_status epId pl ∧
      s'.podcast_list = s.podcast_list.set p podX ∧
      podX.episodes = pod.episodes.set e { ep0 with played := pl } ∧
      podX.any_unplayed = anyUnplayed (pod.episodes.set e { ep0 with played := pl }) ∧
      podX.id = pod.id ∧ podX.title = pod.title ∧ podX.url = pod.url ∧
      podX.description = pod.description ∧ podX.author = pod.author ∧
      podX.explicit = pod.explicit ∧ podX.last_checked = pod.last_checked ∧
      (anyUnplayed (pod.episodes.set e { ep0 with played := pl }) = pod.any_unplayed →
        podX = { pod with episodes := pod.episodes.set e { ep0 with played := pl } }) := by
  rcases stepMarkPlayed_some h with ⟨pod, ep0, epId, hpod, hep, hid, hev, hdb, hlist⟩
  by_cases hA : anyUnplayed (pod.episodes.set e { ep0 with played := pl })
      = pod.any_unplayed
  · refine ⟨pod, ep0, epId,
      { pod with episodes := pod.episodes.set e { ep0 with played := pl } },
      hpod, hep, hid, hev, hdb, ?_, rfl, hA.symm, rfl, rfl, rfl, rfl, rfl, rfl, rfl,
      fun _ => rfl⟩
    rw [hlist, if_neg (not_not_intro hA)]
  · refine ⟨pod, ep0, epId,
      { pod with episodes := pod.episodes.set e { ep0 with played := pl },
                 any_unplayed := anyUnplayed (pod.episodes.set e { ep0 with played := pl }) },
      hpod, hep, hid, hev, hdb, ?_, rfl, rfl, rfl, rfl, rfl, rfl, rfl, rfl, rfl,
      fun hcon => absurd hcon hA⟩
    rw [hlist, if_pos hA]

/-- C2: applying `MarkPlayed(p, e, true)` twice in a row yields the same
state as applying it once: the second application returns the state produced
by the first one unchanged (so episode `e` is still played and the podcast's
`any_unplayed` is unchanged), with the same (empty) notification list. -/
theorem claim_c2_mark_played_idempotent {s s1 : CState} {p e : Nat}
    {ev : List Event}
    (h : stepMarkPlayed s p e true = some (s1, ev)) :
    stepMarkPlayed s1 p e true = some (s1, ev) ∧
    ∃ pod1 ep1, s1.podcast_list[p]? = some pod1 ∧
      pod1.episodes[e]? = some ep1 ∧ ep1.played = true := by
  rcases stepMarkPlayed_shape h with
    ⟨pod, ep0, epId, podX, hpod, hep, hid, hev, hdb, hlist, hXeps, hXany,
     _, _, _, _, _, _, _, _⟩
  subst hev
  have hplen : p < s.podcast_list.length := by
    rcases List.getElem?_eq_some.mp hpod with ⟨hl, _⟩
    exact hl
  have helen : e < pod.episodes.length := by
    rcases List.getElem?_eq_some.mp hep with ⟨hl, _⟩
    exact hl
  have hpod1 : s1.podcast_list[p]? = some podX := by
    rw [hlist]
    exact List.getElem?_set_self hplen
  have hep1 : podX.episodes[e]? = some ({ ep0 with played := true } : Episode) := by
    rw [hXeps]
    exact List.getElem?_set_self helen
  have happ := stepMarkPlayed_eq true hpod1 hep1 hid
  refine ⟨?_, podX, { ep0 with played := true }, hpod1, hep1, rfl⟩
  rw [happ]
  have hss : podX.episodes.set e
      ({ ({ ep0 with played := true } : Episode) with played := true } : Episode) =
      pod.episodes.set e ({ ep0 with played := true } : Episode) := by
    rw [hXeps, List.set_set]
  have hcond : ¬(anyUnplayed (podX.episodes.set e
      ({ ({ ep0 with played := true } : Episode) with played := true } : Episode))
      ≠ podX.any_unplayed) := by
    rw [hss, hXany]
    exact not_not_intro rfl
  rw [if_neg hcond, hss]
  have hpodX :
      ({ podX with episodes := pod.episodes.set e ({ ep0 with played := true } : Episode) } : Podcast)
        = podX := by
    rw [← hXeps]
  rw [hpodX, list_set_self_of_getElem hpod1, hdb, set_played_status_idem, ← hdb]

/-- C3: a non-panicking `MarkPlayed(p, e, pl)` updates exactly episode `e` of
podcast `p` (persisting the flag through `set_played_status`), recomputes the
podcast's `any_unplayed`, writes the podcast record back only when that flag
changed, emits no notification, and leaves every other podcast and episode
untouched. -/
theorem claim_c3_mark_played_frame {s : CState} {p e : Nat} {pl : Bool}
    {s' : CState} {ev : List Event}
    (h : stepMarkPlayed s p e pl = some (s', ev)) :
    MarkPlayedFrame s p e pl s' ev := by
  rcases stepMarkPlayed_shape h with
    ⟨pod, ep0, epId, podX, hpod, hep, hid, hev, hdb, hlist, hXeps, hXany,
     hXid, hXtitle, hXurl, hXdesc, hXauth, hXexp, hXlast, hXunchanged⟩
  have hplen : p < s.podcast_list.length := by
    rcases List.getElem?_eq_some.mp hpod with ⟨hl, _⟩
    exact hl
  have helen : e < pod.episodes.length := by
    rcases List.getElem?_eq_some.mp hep with ⟨hl, _⟩
    exact hl
  refine ⟨hev, ?_, ?_, pod, ep0, hpod, hep, ⟨epId, hid, hdb⟩, podX, ?_, hXeps,
    ?_, ?_, ?_, hXid, hXtitle, hXurl, hXdesc, hXauth, hXexp, hXlast, ?_⟩
  · rw [hlist, List.length_set]
  · intro q hq
    rw [hlist]
    exact List.getElem?_set_ne (fun hc => hq hc.symm)
  · rw [hlist]
    exact List.getElem?_set_self hplen
  · rw [hXeps]
    exact List.getElem?_set_self helen
  · intro f hf
    rw [hXeps]
    exact List.getElem?_set_ne (fun hc => hf hc.symm)
  · rw [hXany, hXeps]
  · intro hsame
    rw [hXeps] at hsame
    rw [hlist, hXunchanged hsame]

/-- C2 witness: idempotence at a concrete state: `sW1` is the state reached
from `sW` by `MarkPlayed(0, 0, true)`, and a second application returns it
unchanged. -/
theorem claim_c2_mark_played_idempotent_witness :
    stepMarkPlayed sW1 0 0 true = some (sW1, []) ∧
    ∃ pod1 ep1, sW1.podcast_list[0]? = some pod1 ∧
      pod1.episodes[0]? = some ep1 ∧ ep1.played = true :=
  @claim_c2_mark_played_idempotent sW sW1 0 0 [] (by decide)

/-- C3 witness: the frame property at a concrete state. -/
theorem claim_c3_mark_played_frame_witness :
    MarkPlayedFrame sW 0 0 true sW1 [] :=
  claim_c3_mark_played_frame (by decide)

/-- C4: a non-panicking `MarkAllPlayed(p, pl)` on a podcast whose persistence
row matches its in-memory episode list persists `pl` for every episode,
reloads the episode list from persistence, sets `any_unplayed := !pl`, and
emits the refresh-menus notification; every reloaded episode carries flag
`pl` and the episode count is preserved. -/
theorem claim_c4_mark_all_played {s : CState} {p : Nat} {pl : Bool}
    {s' : CState} {ev : List Event} {pod row : Podcast} {podId : Int}
    (hpod : s.podcast_list[p]? = some pod)
    (hid : pod.id = some podId)
    (hrow : s.db.podcasts.find? (fun q => decide (q.id = some podId)) = some row)
    (heps : row.episodes = pod.episodes)
    (h : stepMarkAllPlayed s p pl = some (s', ev)) :
    MarkAllPlayedPost pod p pl podId s' ev := by
  rcases stepMarkAllPlayed_some h with ⟨pod2, db1, podId2, hpod2, hset, hid2, hev, hs'⟩
  rw [hpod] at hpod2
  injection hpod2 with hpodeq
  subst hpodeq
  rw [hid] at hid2
  injection hid2 with hideq
  subst hideq
  have hplen : p < s.podcast_list.length := by
    rcases List.getElem?_eq_some.mp hpod with ⟨hl, _⟩
    exact hl
  rcases reload_all_played hset hrow heps with ⟨hall, hlen⟩
  subst hs'
  refine ⟨hev, { pod with episodes := db1.get_episodes podId, any_unplayed := !pl },
    ?_, rfl, rfl, hall, hlen⟩
  exact List.getElem?_set_self hplen

/-- C4 witness: the spec scenario: `MarkAllPlayed(0, true)` on a podcast of
five unplayed episodes ends with all five played, `any_unplayed = false`, and
a refresh-menus notification. -/
theorem claim_c4_mark_all_played_witness :
    MarkAllPlayedPost pod5 0 true 1 s5after [Event.note MainMessage.UiUpdateMenus] :=
  @claim_c4_mark_all_played s5 0 true s5after [Event.note MainMessage.UiUpdateMenus]
    pod5 pod5 1 (by decide) (by decide) (by decide) (by decide) (by decide)

/-- C1 (amended): one controller step preserves the derived-flag invariant
`podcast.any_unplayed = any(not ep.played)` for every message, provided that
a `MarkAllPlayed` message finds a persistence row matching the in-memory
episode list that is nonempty or is being marked played (`markAllPrecond`);
without that proviso `MarkAllPlayed` breaks the invariant on an empty episode
list with `played = false` (see the counterexample). -/
theorem claim_c1_any_unplayed_invariant (cfg : Config) (env : Env) (s : CState)
    (msg : Message) (s' : CState) (ev : List Event)
    (hinv : catalogInv s)
    (hpre : ∀ i pl, msg = Message.Ui (UiMsg.MarkAllPlayed i pl) → markAllPrecond s i pl)
    (h : step cfg env s msg = some (s', ev)) :
    catalogInv s' := by
  cases msg with
  | Ui m =>
    cases m with
    | Quit =>
      simp only [step, Option.some.injEq, Prod.mk.injEq] at h
      rw [← h.1]
      exact hinv
    | AddFeed url =>
      simp only [step, stepAddFeed, Option.some.injEq, Prod.mk.injEq] at h
      rw [← h.1]
      exact hinv
    | Sync i =>
      rw [stepSync_state h]
      exact hinv
    | SyncAll =>
      simp only [step, stepSyncAll, Option.some.injEq, Prod.mk.injEq] at h
      rw [← h.1]
      exact hinv
    | Play i j =>
      rw [stepPlay_state h]
      exact hinv
    | MarkPlayed i j pl =>
      rcases stepMarkPlayed_shape h with
        ⟨pod, ep0, epId, podX, hpod, hep, hid, hev, hdb, hlist, hXeps, hXany,
         _, _, _, _, _, _, _, _⟩
      have hXinv : podInv podX := by
        unfold podInv
        rw [hXany, hXeps]
      intro x hx
      rw [hlist] at hx
      exact forall_podInv_set hinv hXinv x hx
    | MarkAllPlayed i pl =>
      rcases stepMarkAllPlayed_some h with ⟨pod, db1, podId, hpod, hset, hid, hev, hs'⟩
      rcases hpre i pl rfl pod hpod with ⟨podId2, row, hid2, hrow, heps, hne⟩
      rw [hid] at hid2
      injection hid2 with hideq
      subst hideq
      rcases reload_all_played hset hrow heps with ⟨hall, hlen⟩
      have hXinv : podInv
          { pod with episodes := db1.get_episodes podId, any_unplayed := !pl } := by
        unfold podInv
        show (!pl) = anyUnplayed (db1.get_episodes podId)
        cases pl with
        | true =>
          rw [anyUnplayed_false_of_all_played hall]
          rfl
        | false =>
          have hne2 : pod.episodes ≠ [] := by
            rcases hne with hne | hcon
            · exact hne
            · exact absurd hcon (by simp)
          have hne3 : db1.get_episodes podId ≠ [] := by
            intro hnil
            rw [hnil] at hlen
            exact hne2 (List.length_eq_zero.mp hlen.symm)
          rw [anyUnplayed_true_of_all_unplayed hne3 hall]
          rfl
      subst hs'
      intro x hx
      exact forall_podInv_set hinv hXinv x hx
    | Download i j =>
      rw [stepDownload_state h]
      exact hinv
    | DownloadAll i =>
      rw [stepDownloadAll_state h]
      exact hinv
    | Noop =>
      simp only [step, Option.some.injEq, Prod.mk.injEq] at h
      rw [← h.1]
      exact hinv
  | Feed m =>
    cases m with
    | NewData pod =>
      simp only [step, stepFeedNewData, Database.insert_podcast,
        Option.some.injEq, Prod.mk.injEq] at h
      rw [← h.1]
      intro x hx
      exact podInv_get_podcasts hx
    | SyncData pod =>
      simp only [step, stepFeedSyncData, Database.update_podcast,
        Option.some.injEq, Prod.mk.injEq] at h
      rw [← h.1]
      intro x hx
      exact podInv_get_podcasts hx
    | Error =>
      simp only [step, stepFeedError, Option.some.injEq, Prod.mk.injEq] at h
      rw [← h.1]
      exact hinv
  | Dl m =>
    cases m with
    | Complete d =>
      rcases stepDlComplete_some h with ⟨pi, podcast, ei, episode, hpod, hep, hev, hlist⟩
      have hXinv :
          podInv { podcast with episodes := podcast.episodes.set ei { episode with path := some d.file_path } } := by
        have hbase : podInv podcast := hinv podcast (List.getElem?_mem hpod)
        unfold podInv at hbase ⊢
        show podcast.any_unplayed =
          anyUnplayed (podcast.episodes.set ei { episode with path := some d.file_path })
        rw [anyUnplayed_set_same_played hep
          (show ({ episode with path := some d.file_path } : Episode).played
            = episode.played from rfl)]
        exact hbase
      intro x hx
      rw [hlist] at hx
      exact forall_podInv_set hinv hXinv x hx
    | ResponseError d =>
      simp only [step, Option.some.injEq, Prod.mk.injEq] at h
      rw [← h.1]
      exact hinv
    | ResponseDataError d =>
      simp only [step, Option.some.injEq, Prod.mk.injEq] at h
      rw [← h.1]
      exact hinv
    | FileCreateError d =>
      simp only [step, Option.some.injEq, Prod.mk.injEq] at h
      rw [← h.1]
      exact hinv
    | FileWriteError d =>
      simp only [step, Option.some.injEq, Prod.mk.injEq] at h
      rw [← h.1]
      exact hinv

/-- C1 witness: a concrete `MarkPlayed` step from an invariant-satisfying
state yields an invariant-satisfying state. -/
theorem claim_c1_any_unplayed_invariant_witness : catalogInv sW1 :=
  claim_c1_any_unplayed_invariant cfgW envOkW sW
    (Message.Ui (UiMsg.MarkPlayed 0 0 true)) sW1 []
    (by simp only [catalogInv, podInv]; decide)
    (by intro i pl hcon; simp at hcon)
    (by decide)

/-- C1 counterexample: from the invariant-satisfying state `cexState` (one
persisted podcast with an empty episode list — `types.rs` documents the
episode vector as possibly empty — whose derived flag is consistently
`false`, mirrored in the database), `MarkAllPlayed(0, false)` sets
`any_unplayed := !played = true`, while the OR of `not played` over the
empty episode list is `false`: the handler does not re-establish the claimed
equality on an empty episode list. -/
theorem claim_c1_any_unplayed_invariant_counterexample :
    catalogInv cexState ∧
    stepMarkAllPlayed cexState 0 false =
      some ({ podcast_list := [{ cexPodcast with any_unplayed := true }], db := cexDb },
            [Event.note MainMessage.UiUpdateMenus]) ∧
    ({ cexPodcast with any_unplayed := true } : Podcast).any_unplayed = true ∧
    anyUnplayed ({ cexPodcast with any_unplayed := true } : Podcast).episodes = false := by
  refine ⟨?_, by decide, by decide, by decide⟩
  simp only [catalogInv, podInv]
  decide

/-- C6: a successful new-feed result (`FeedMsg::NewData`) persists the parsed
podcast as a new row, reloads the catalog — whose podcast count therefore
grows by one when the catalog was in sync with persistence — and emits the
refresh-menus notification together with the
"Successfully added N episodes." message, N being the new episode count. -/
theorem claim_c6_new_feed_success (s : CState) (pod : Podcast) (s' : CState)
    (ev : List Event)
    (hlen : s.podcast_list.length = s.db.podcasts.length)
    (h : stepFeedNewData s pod = (s', ev)) :
    s'.podcast_list.length = s.podcast_list.length + 1 ∧
    s'.db.podcasts = s.db.podcasts ++ [{ pod with id := some s.db.next_id }] ∧
    ev = [Event.note MainMessage.UiUpdateMenus,
          Event.note (MainMessage.UiSpawnMsgWin
            ("Successfully added " ++ toString pod.episodes.length ++ " episodes.") 5000)] := by
  unfold stepFeedNewData Database.insert_podcast at h
  simp only [Prod.mk.injEq] at h
  obtain ⟨h1, h2⟩ := h
  refine ⟨?_, ?_, h2.symm⟩
  · rw [← h1]
    show (Database.get_podcasts _).length = _
    unfold Database.get_podcasts
    simp [hlen]
  · rw [← h1]

/-- C6 witness: the spec scenario: a parsed feed of 12 episodes on an empty
catalog ends with one podcast, the appended persistence row, and the
"Successfully added 12 episodes." message. -/
theorem claim_c6_new_feed_success_witness :
    (stepFeedNewData sEmptyW pod12).1.podcast_list.length
        = sEmptyW.podcast_list.length + 1 ∧
    (stepFeedNewData sEmptyW pod12).1.db.podcasts =
      sEmptyW.db.podcasts ++ [{ pod12 with id := some sEmptyW.db.next_id }] ∧
    (stepFeedNewData sEmptyW pod12).2 =
      [Event.note MainMessage.UiUpdateMenus,
       Event.note (MainMessage.UiSpawnMsgWin
         "Successfully added 12 episodes." 5000)] := by
  have h := claim_c6_new_feed_success sEmptyW pod12
    (stepFeedNewData sEmptyW pod12).1 (stepFeedNewData sEmptyW pod12).2 rfl rfl
  refine ⟨h.1, h.2.1, ?_⟩
  rw [h.2.2]
  decide

/-- C7 (amended): a non-panicking `Play(p, e)` never mutates the state; it
invokes the external player exactly once when the episode has no local path
(streaming the URL) or a valid-Unicode local path (playing the file), with a
notification exactly when that invocation fails; when a local path is present
but not valid Unicode, the player is not invoked at all and exactly one
notification is emitted. -/
theorem claim_c7_play_resolution {cfg : Config} {env : Env} {s : CState}
    {p e : Nat} {pod : Podcast} {ep : Episode} {s' : CState} {ev : List Event}
    (hpod : s.podcast_list[p]? = some pod)
    (hep : pod.episodes[e]? = some ep)
    (h : stepPlay cfg env s p e = some (s', ev)) :
    PlaySpec cfg env s ep s' ev := by
  have hstate := stepPlay_state h
  unfold stepPlay at h
  rw [hpod] at h
  simp only [] at h
  rw [hep] at h
  simp only [] at h
  refine ⟨hstate, ?_, ?_, ?_⟩
  · intro hnone
    rw [hnone] at h
    simp only [] at h
    cases hok : env.playOk with
    | true =>
      simp only [hok, if_true, Option.some.injEq, Prod.mk.injEq] at h
      rw [← h.2, if_pos rfl]
      exact ⟨rfl, by simp [countPlayerExec, isPlayerExec]⟩
    | false =>
      simp only [hok, Bool.false_eq_true, if_false,
        Option.some.injEq, Prod.mk.injEq] at h
      rw [← h.2, if_neg (by simp)]
      exact ⟨rfl, by simp [countPlayerExec, isPlayerExec, List.filter_cons]⟩
  · intro str hstr
    rw [hstr] at h
    simp only [FsPath.to_str] at h
    cases hok : env.playOk with
    | true =>
      simp only [hok, if_true, Option.some.injEq, Prod.mk.injEq] at h
      rw [← h.2, if_pos rfl]
      exact ⟨rfl, by simp [countPlayerExec, isPlayerExec]⟩
    | false =>
      simp only [hok, Bool.false_eq_true, if_false,
        Option.some.injEq, Prod.mk.injEq] at h
      rw [← h.2, if_neg (by simp)]
      exact ⟨rfl, by simp [countPlayerExec, isPlayerExec, List.filter_cons]⟩
  · intro hbad
    rw [hbad] at h
    simp only [FsPath.to_str, Option.some.injEq, Prod.mk.injEq] at h
    rw [← h.2]
    exact ⟨rfl, by simp [countPlayerExec, isPlayerExec, List.filter_cons]⟩

/-- C7 witness: streaming a concrete no-local-path episode with a succeeding
player invocation: exactly one invocation, no notification, state unchanged. -/
theorem claim_c7_play_resolution_witness :
    PlaySpec cfgW envOkW sW e10 sW [Event.playerExec cfgW.play_command e10.url] :=
  @claim_c7_play_resolution cfgW envOkW sW 0 0 podW e10 sW
    [Event.playerExec cfgW.play_command e10.url] rfl rfl (by decide)

/-- C7 counterexample: with a present but non-Unicode local path, `Play`
performs zero player invocations — not exactly one as claimed — and only
emits the path-encoding notification. -/
theorem claim_c7_play_resolution_counterexample :
    stepPlay cfgW envOkW sBad 0 0 =
      some (sBad, [Event.note (MainMessage.UiSpawnMsgWin
        "Error: Filepath is not valid Unicode." 5000)]) ∧
    countPlayerExec [Event.note (MainMessage.UiSpawnMsgWin
      "Error: Filepath is not valid Unicode." 5000)] = 0 ∧
    epBad.path = some FsPath.nonUnicode :=
  ⟨by decide, by decide, by decide⟩

/-- C5: processing a feed-sync failure result (`FeedMsg::Error`) leaves the
state — catalog and persistence — unchanged and emits exactly one
`show-message` notification with text "Error retrieving RSS feed." and
duration 5000. -/
theorem claim_c5_feed_error_atomic (s : CState) :
    stepFeedError s =
      (s, [Event.note (MainMessage.UiSpawnMsgWin
        "Error retrieving RSS feed." 5000)]) := rfl

/-- C8: `SyncAll` snapshots `(url, id)` of every podcast with a single
acquisition of the podcast-list lock, and after releasing it spawns exactly
one feed worker per podcast, in catalog order, without touching the state. -/
theorem claim_c8_sync_all_snapshot (s : CState) :
    stepSyncAll s =
      (s, [Event.lockPodcastList, Event.unlockPodcastList] ++
        s.podcast_list.map fun podcast =>
          Event.spawnFeedWorker podcast.url podcast.id) ∧
    ((stepSyncAll s).2.filter isLockAcquire).length = 1 ∧
    (stepSyncAll s).2 =
      [Event.lockPodcastList, Event.unlockPodcastList] ++
        (stepSyncAll s).2.filter isSpawnEvent ∧
    (stepSyncAll s).1 = s := by
  refine ⟨rfl, ?_, ?_, rfl⟩
  · simp only [stepSyncAll, List.filter_append, List.filter_map]
    simp [isLockAcquire, Function.comp]
  · simp only [stepSyncAll, List.filter_append, List.filter_map]
    rw [show (isSpawnEvent ∘ fun podcast : Podcast =>
      Event.spawnFeedWorker podcast.url podcast.id) = fun _ => true from rfl]
    simp [isSpawnEvent, List.filter_cons, List.filter_true]

/-- C9: both download intents resolve their episode(s) and submit the batch
to the download manager regardless of whether creating the destination
directory succeeded; a failed directory creation only adds a notification
(non-fatal), and the state is unchanged. -/
theorem claim_c9_download_dir_nonfatal (cfg : Config) (env : Env) (s : CState)
    (p e : Nat) (pod : Podcast) (ep : Episode)
    (hpod : s.podcast_list[p]? = some pod)
    (hep : pod.episodes[e]? = some ep) :
    stepDownload cfg env s p e =
      some (s, dirEvents pod.title env ++
        [Event.downloadSubmit [ep] (cfg.download_path ++ [pod.title])]) ∧
    stepDownloadAll cfg env s p =
      some (s, dirEvents pod.title env ++
        [Event.downloadSubmit pod.episodes (cfg.download_path ++ [pod.title])]) ∧
    (env.createDirOk = false →
      dirEvents pod.title env =
        [Event.note (MainMessage.UiSpawnMsgWin
          ("Could not create dir: " ++ pod.title) 5000)]) ∧
    (env.createDirOk = true → dirEvents pod.title env = []) := by
  refine ⟨?_, ?_, ?_, ?_⟩
  · simp [stepDownload, hpod, hep]
  · simp [stepDownloadAll, hpod]
  · intro h
    simp [dirEvents, h]
  · intro h
    simp [dirEvents, h]

/-- C9 witness: on a concrete catalog with a failing directory creation the
batch is still submitted and the notification is emitted. -/
theorem claim_c9_download_dir_nonfatal_witness :
    stepDownload cfgW envDirFailW sW 0 0 =
      some (sW, dirEvents podW.title envDirFailW ++
        [Event.downloadSubmit [e10] (cfgW.download_path ++ [podW.title])]) ∧
    stepDownloadAll cfgW envDirFailW sW 0 =
      some (sW, dirEvents podW.title envDirFailW ++
        [Event.downloadSubmit podW.episodes (cfgW.download_path ++ [podW.title])]) ∧
    (envDirFailW.createDirOk = false →
      dirEvents podW.title envDirFailW =
        [Event.note (MainMessage.UiSpawnMsgWin
          ("Could not create dir: " ++ podW.title) 5000)]) ∧
    (envDirFailW.createDirOk = true → dirEvents podW.title envDirFailW = []) :=
  claim_c9_download_dir_nonfatal cfgW envDirFailW sW 0 0 podW e10 rfl rfl

/-- C10: an out-of-range podcast index makes every positional handler panic
at the `unwrap` (modelled by `none`) before any notification could be
emitted, and likewise an out-of-range episode index for the episode-addressed
handlers; index validity is therefore a precondition of these handlers. -/
theorem claim_c10_bad_index_panics (cfg : Config) (env : Env) (s : CState)
    (p e : Nat) (pl : Bool) :
    (s.podcast_list.length ≤ p →
      stepSync s p = none ∧
      stepPlay cfg env s p e = none ∧
      stepMarkPlayed s p e pl = none ∧
      stepMarkAllPlayed s p pl = none ∧
      stepDownload cfg env s p e = none ∧
      stepDownloadAll cfg env s p = none) ∧
    (∀ pod, s.podcast_list[p]? = some pod → pod.episodes.length ≤ e →
      stepPlay cfg env s p e = none ∧
      stepMarkPlayed s p e pl = none ∧
      stepDownload cfg env s p e = none) := by
  constructor
  · intro h
    have hnone : s.podcast_list[p]? = none := List.getElem?_eq_none_iff.mpr h
    refine ⟨?_, ?_, ?_, ?_, ?_, ?_⟩ <;>
      simp [stepSync, stepPlay, stepMarkPlayed, stepMarkAllPlayed,
        stepDownload, stepDownloadAll, hnone]
  · intro pod hpod h
    have hnone : pod.episodes[e]? = none := List.getElem?_eq_none_iff.mpr h
    refine ⟨?_, ?_, ?_⟩ <;>
      simp [stepPlay, stepMarkPlayed, stepDownload, hpod, hnone]

/-- C10 witness: index 0 on an empty catalog panics in all six handlers;
episode index 5 on a two-episode podcast panics in the three episode-addressed
handlers. -/
theorem claim_c10_bad_index_panics_witness :
    (stepSync sEmptyW 0 = none ∧
     stepPlay cfgW envOkW sEmptyW 0 0 = none ∧
     stepMarkPlayed sEmptyW 0 0 true = none ∧
     stepMarkAllPlayed sEmptyW 0 true = none ∧
     stepDownload cfgW envOkW sEmptyW 0 0 = none ∧
     stepDownloadAll cfgW envOkW sEmptyW 0 = none) ∧
    (stepPlay cfgW envOkW sW 0 5 = none ∧
     stepMarkPlayed sW 0 5 true = none ∧
     stepDownload cfgW envOkW sW 0 5 = none) :=
  ⟨(claim_c10_bad_index_panics cfgW envOkW sEmptyW 0 0 true).1 (by decide),
   (claim_c10_bad_index_panics cfgW envOkW sW 0 5 true).2 podW rfl (by decide)⟩

end Shellcaster
